import Mathlib

/-
Verification of the Direct Method off-policy estimator
(rllib/offline/estimators/direct_method.py).

Numeric values are modelled over ℚ (exact rationals standing in for Python
floats).  NumPy's `mean`/`std` over an empty list yield NaN; NaN is modelled
as `none : Option ℚ`, and Python's `max`/`/`/`-` propagate it the way the
interpreter does (`max(nan, c)` keeps `nan` because the comparison is false).
Standard deviations involve a square root, which leaves ℚ: the `Estimates`
record therefore stores the *square* of the value that `np.std` reports
(the population variance), and `reportedStd` recovers the reported real
number as its square root.
-/

namespace DirectMethodSpec

set_option autoImplicit false

/-- One logged transition of a trajectory batch: the reward received, the
episode-terminal flag used by episode splitting, whether the transition
carries the behaviour policy's action-probability field, and an opaque
observation identifier (what `estimate_v` gets to look at). -/
structure Transition where
  reward : ℚ
  done : Bool
  hasActionProb : Bool
  obs : ℕ
deriving DecidableEq

/-- A `SampleBatchType`: either a flat single-agent batch or a multi-agent
mapping from agent identifiers to per-agent transition sequences. -/
inductive SampleBatchType where
  | flat (transitions : List Transition)
  | multi (agents : List (ℕ × List Transition))
deriving DecidableEq

/-- Modelled from the spec: `convert_ma_batch_to_sample_batch` (defined on
`OffPolicyEstimator`, outside the provided sources) normalizes a multi-agent
batch representation into a single flat per-agent-step sequence and leaves a
flat batch unchanged. -/
def convert_ma_batch_to_sample_batch : SampleBatchType → List Transition
  | .flat ts => ts
  | .multi m => (m.map Prod.snd).flatten

/-- Modelled from the spec: `check_action_prob_in_batch` (defined on
`OffPolicyEstimator`, outside the provided sources) verifies that every
transition carries the action-probability field; it is vacuously satisfied
by an empty batch. -/
def check_action_prob_in_batch (b : List Transition) : Bool :=
  b.all (·.hasActionProb)

/-- Modelled from the spec: the worker loop of `SampleBatch.split_by_episode`
(outside the provided sources).  `acc` holds the transitions of the episode
currently being scanned, in reverse order. -/
def splitGo : List Transition → List Transition → List (List Transition)
  | [], acc => if acc.isEmpty then [] else [acc.reverse]
  | t :: rest, acc =>
      if t.done then (acc.reverse ++ [t]) :: splitGo rest []
      else splitGo rest (t :: acc)

/-- Modelled from the spec: `SampleBatch.split_by_episode` (outside the
provided sources) scans transitions in order; an episode boundary occurs
immediately after a transition flagged as terminal, a trailing partial
episode is still yielded, and an empty batch yields zero episodes. -/
def split_by_episode (b : List Transition) : List (List Transition) :=
  splitGo b []

/-- The ValueModel capability consumed by the estimator, with explicit state
passing over an abstract parameter state `σ`: `estimate_v` maps a single-step
batch to a scalar value estimate, and the model's `train` is split into the
loss sequence it returns (`trainLosses`) and the parameter update it performs
(`trainStep`). -/
structure ModelIface (σ : Type) where
  estimate_v : σ → List Transition → ℚ
  trainLosses : σ → List Transition → List ℚ
  trainStep : σ → List Transition → σ

/-- The mutable state of a `DirectMethod` estimator: the discount factor
`gamma` fixed at construction and the owned ValueModel's parameters. -/
structure DMState (σ : Type) where
  gamma : ℚ
  model : σ
deriving DecidableEq

/-- The error taxonomy of the spec.  `missingField` is `MissingFieldError`
("action probability is required"); `emptyBatch` is the spec's
`EmptyBatchError`, listed here so that claims about it can be stated. -/
inductive EstErr where
  | missingField
  | emptyBatch
deriving DecidableEq

/-- `np.mean` of a list: NaN (`none`) on the empty list, otherwise the
arithmetic mean. -/
def npMean (l : List ℚ) : Option ℚ :=
  if l.isEmpty then none else some (l.sum / l.length)

/-- The square of `np.std` of a list (population variance): NaN (`none`) on
the empty list, otherwise the mean of the squared deviations from the mean
(divided by `n`, not `n - 1`). -/
def npVarP (l : List ℚ) : Option ℚ :=
  if l.isEmpty then none
  else some (((l.map (fun x => (x - l.sum / l.length) ^ 2)).sum) / l.length)

/-- The real number `np.std` reports for a stored variance field: its square
root, with NaN propagated. -/
noncomputable def reportedStd (v : Option ℚ) : Option ℝ :=
  v.map (fun q => Real.sqrt (q : ℝ))

/-- The result record of `DirectMethod.estimate`.  The `_var` fields hold the
squares of the reported `v_behavior_std` / `v_target_std` (see `reportedStd`);
`none` stands for NaN throughout. -/
structure Estimates where
  v_behavior : Option ℚ
  v_behavior_var : Option ℚ
  v_target : Option ℚ
  v_target_var : Option ℚ
  v_gain : Option ℚ
  v_delta : Option ℚ
deriving DecidableEq

/-- The per-episode loop body of `DirectMethod.estimate`:
`for t in range(episode.count): v_behavior += rewards[t] * self.gamma ** t`. -/
def v_behavior_of (γ : ℚ) (e : List Transition) : ℚ :=
  (List.range e.length).foldl
    (fun acc t => acc + (e.map Transition.reward).getD t 0 * γ ^ t) 0

/-- The list of empirical discounted behaviour returns, one per episode of
the flat batch `b` (`estimates_per_epsiode["v_behavior"]`). -/
def behaviorReturns (γ : ℚ) (b : List Transition) : List ℚ :=
  (split_by_episode b).map (v_behavior_of γ)

/-- The list of model value estimates at each episode's initial step
(`estimates_per_epsiode["v_target"]`): `episode[0:1]` passed to
`self.model.estimate_v` and coerced to a scalar. -/
def targetEstimates {σ : Type} (M : ModelIface σ) (m : σ) (b : List Transition) :
    List ℚ :=
  (split_by_episode b).map (fun e => M.estimate_v m (e.take 1))

/-- The guard constant `1e-8` of `v_gain = v_target / max(v_behavior, 1e-8)`. -/
def epsGuard : ℚ := 1 / 100000000

/-- The aggregation step of `DirectMethod.estimate` (source lines 99-106):
mean and population standard deviation of the two per-episode lists, then
`v_gain = v_target / max(v_behavior, 1e-8)` and
`v_delta = v_target - v_behavior` derived from the two means.  Python's
`max(nan, 1e-8)` evaluates to `nan`, and arithmetic on NaN yields NaN, hence
the `none` propagation. -/
def aggregateEstimates (B T : List ℚ) : Estimates :=
  { v_behavior := npMean B
    v_behavior_var := npVarP B
    v_target := npMean T
    v_target_var := npVarP T
    v_gain :=
      match npMean T, (npMean B).map (fun x => max x epsGuard) with
      | some t, some d => some (t / d)
      | _, _ => none
    v_delta :=
      match npMean T, npMean B with
      | some t, some b => some (t - b)
      | _, _ => none }

/-- `DirectMethod.estimate` as a state transformer: normalize the batch,
check the action-probability field, split into episodes, compute the two
per-episode lists, aggregate.  The method body assigns nothing to `self`, so
the returned estimator state is the input state in both branches. -/
def estimateRun {σ : Type} (M : ModelIface σ) (s : DMState σ)
    (batch : SampleBatchType) : Except EstErr Estimates × DMState σ :=
  if check_action_prob_in_batch (convert_ma_batch_to_sample_batch batch) then
    (Except.ok
      (aggregateEstimates
        (behaviorReturns s.gamma (convert_ma_batch_to_sample_batch batch))
        (targetEstimates M s.model (convert_ma_batch_to_sample_batch batch))),
     s)
  else (Except.error EstErr.missingField, s)

/-- The result of `DirectMethod.train`: `{"loss": np.mean(losses)}`, NaN
(`none`) when the model returned an empty loss sequence. -/
structure TrainResult where
  loss : Option ℚ
deriving DecidableEq

/-- `DirectMethod.train` as a state transformer: normalize the batch (no
action-probability check), delegate to the model's training routine on the
entire flat batch, return the mean loss, and carry the model's updated
parameters. -/
def trainRun {σ : Type} (M : ModelIface σ) (s : DMState σ)
    (batch : SampleBatchType) : Except EstErr TrainResult × DMState σ :=
  (Except.ok
     { loss := npMean (M.trainLosses s.model (convert_ma_batch_to_sample_batch batch)) },
   { s with
      model := M.trainStep s.model (convert_ma_batch_to_sample_batch batch) })

/-- A Q-model class selector: the default `FQETorchModel` or a custom class
passed under the `type` key. -/
inductive ModelCls where
  | FQETorchModel
  | custom (id : ℕ)
deriving DecidableEq

/-- A value stored in the `q_model_config` dict: the `type` entry holds a
model class, every other entry is an opaque keyword argument. -/
inductive ConfigVal where
  | cls (c : ModelCls)
  | num (q : ℚ)
deriving DecidableEq

/-- The `q_model_config` dict, as an association list with unique keys. -/
abbrev QConfig := List (String × ConfigVal)

/-- Python's `dict.pop(k, default)` restricted to what `__init__` needs:
the looked-up value (if any) together with the dict with key `k` removed. -/
def dictPop (d : QConfig) (k : String) : Option ConfigVal × QConfig :=
  match d.lookup k with
  | some v => (some v, d.filter (fun p => p.1 != k))
  | none => (none, d)

/-- What `DirectMethod.__init__` passes on: the selected model class and the
keyword arguments forwarded verbatim to it. -/
structure InitResult where
  model_cls : ModelCls
  forwarded : QConfig
deriving DecidableEq

/-- `DirectMethod.__init__`'s handling of `q_model_config` (source lines
53-59): `q_model_config = q_model_config or {}` then
`model_cls = q_model_config.pop("type", FQETorchModel)` and the remaining
entries are forwarded as keyword arguments.  The second component is the
caller's dict after the call: `pop` mutates it in place (when `None` was
passed, a fresh dict is used and the caller sees nothing). -/
def directMethodInit (q_model_config : Option QConfig) :
    InitResult × Option QConfig :=
  match q_model_config with
  | none => ({ model_cls := ModelCls.FQETorchModel, forwarded := [] }, none)
  | some d =>
      let p := dictPop d "type"
      let cls := match p.1 with
        | some (ConfigVal.cls c) => c
        | _ => ModelCls.FQETorchModel
      ({ model_cls := cls, forwarded := p.2 }, some p.2)

/-- A two-episode demonstration batch: rewards `[1, 1]` and `[2]`, every
transition carrying the action-probability field. -/
def t1 : Transition := ⟨1, false, true, 0⟩

/-- Second transition of the first demonstration episode (terminal). -/
def t2 : Transition := ⟨1, true, true, 1⟩

/-- The single (terminal) transition of the second demonstration episode. -/
def t3 : Transition := ⟨2, true, true, 2⟩

/-- The flat demonstration batch holding episodes `[t1, t2]` and `[t3]`. -/
def demoBatch : SampleBatchType := SampleBatchType.flat [t1, t2, t3]

/-- A ValueModel whose `estimate_v` deterministically returns `2.0` for every
initial state. -/
def demoModel : ModelIface Unit :=
  { estimate_v := fun _ _ => 2, trainLosses := fun _ _ => [], trainStep := fun s _ => s }

/-- A demonstration estimator state with discount factor `γ = 1/2`. -/
def demoState : DMState Unit := ⟨1/2, ()⟩

/-- A transition lacking the action-probability field. -/
def tBad : Transition := ⟨3, false, false, 0⟩

/-- A batch whose (single) transition lacks the action-probability field. -/
def badBatch : SampleBatchType := SampleBatchType.flat [tBad]

/-- A ValueModel whose training routine reports the losses `[4.0, 2.0]`. -/
def lossModel : ModelIface Unit :=
  { estimate_v := fun _ _ => 0, trainLosses := fun _ _ => [4, 2], trainStep := fun s _ => s }

/-- The estimate record produced on `demoBatch`: behaviour returns `3/2` and
`2` (mean `7/4`, population variance `1/16`), target estimates `2` and `2`
(mean `2`, variance `0`), `v_gain = 2 / (7/4) = 8/7`, `v_delta = 1/4`. -/
def demoEstimates : Estimates :=
  { v_behavior := some (7/4), v_behavior_var := some (1/16), v_target := some 2,
    v_target_var := some 0, v_gain := some (8/7), v_delta := some (1/4) }

lemma foldl_add_map (f : ℕ → ℚ) (l : List ℕ) : ∀ a : ℚ,
    l.foldl (fun acc t => acc + f t) a = a + (l.map f).sum := by
  induction l with
  | nil => intro a; simp
  | cons x xs ih => intro a; rw [List.foldl_cons, ih, List.map_cons, List.sum_cons]; ring

lemma v_behavior_of_eq_sum (γ : ℚ) (e : List Transition) :
    v_behavior_of γ e =
      ((List.range e.length).map
        (fun t => (e.map Transition.reward).getD t 0 * γ ^ t)).sum := by
  unfold v_behavior_of
  rw [foldl_add_map, zero_add]

lemma range_map_getD (l : List ℚ) :
    (List.range l.length).map (fun t => l.getD t 0) = l := by
  induction l with
  | nil => simp
  | cons x xs ih =>
      rw [List.length_cons, List.range_succ_eq_map, List.map_cons, List.map_map]
      have hc : ((fun t => (x :: xs).getD t 0) ∘ Nat.succ) = fun t => xs.getD t 0 :=
        funext (fun t => rfl)
      rw [hc, ih]
      rfl

lemma splitGo_acc_ne_nil : ∀ (l acc : List Transition), acc ≠ [] → splitGo l acc ≠ []
  | [], acc, h => by
      simp [splitGo, h]
  | t :: rest, acc, h => by
      rw [splitGo]
      by_cases hd : t.done
      · simp [hd]
      · simpa [hd] using splitGo_acc_ne_nil rest (t :: acc) (by simp)

lemma split_by_episode_eq_nil_iff (b : List Transition) :
    split_by_episode b = [] ↔ b = [] := by
  constructor
  · intro h
    cases b with
    | nil => rfl
    | cons t rest =>
        exfalso
        rw [split_by_episode, splitGo] at h
        by_cases hd : t.done
        · simp [hd] at h
        · exact splitGo_acc_ne_nil rest [t] (by simp) (by simpa [hd] using h)
  · intro h; subst h; rfl

lemma npMean_of_ne_nil {l : List ℚ} (h : l ≠ []) :
    npMean l = some (l.sum / (l.length : ℚ)) := by
  obtain ⟨x, xs, rfl⟩ := List.exists_cons_of_ne_nil h
  rfl

lemma npVarP_of_ne_nil {l : List ℚ} (h : l ≠ []) :
    npVarP l = some (((l.map (fun x => (x - l.sum / (l.length : ℚ)) ^ 2)).sum) / (l.length : ℚ)) := by
  obtain ⟨x, xs, rfl⟩ := List.exists_cons_of_ne_nil h
  rfl

lemma estimateRun_guard_true {σ : Type} (M : ModelIface σ) (s : DMState σ)
    (batch : SampleBatchType)
    (hg : check_action_prob_in_batch (convert_ma_batch_to_sample_batch batch) = true) :
    estimateRun M s batch =
      (Except.ok
        (aggregateEstimates
          (behaviorReturns s.gamma (convert_ma_batch_to_sample_batch batch))
          (targetEstimates M s.model (convert_ma_batch_to_sample_batch batch))),
       s) := by
  rw [estimateRun, if_pos hg]

lemma estimateRun_guard_false {σ : Type} (M : ModelIface σ) (s : DMState σ)
    (batch : SampleBatchType)
    (hg : check_action_prob_in_batch (convert_ma_batch_to_sample_batch batch) = false) :
    estimateRun M s batch = (Except.error EstErr.missingField, s) := by
  rw [estimateRun, if_neg (by simp [hg])]

lemma aggregate_of_ne_nil (B T : List ℚ) (hB : B ≠ []) (hT : T ≠ []) :
    aggregateEstimates B T =
      { v_behavior := some (B.sum / (B.length : ℚ))
        v_behavior_var := some (((B.map (fun x => (x - B.sum / (B.length : ℚ)) ^ 2)).sum) / (B.length : ℚ))
        v_target := some (T.sum / (T.length : ℚ))
        v_target_var := some (((T.map (fun x => (x - T.sum / (T.length : ℚ)) ^ 2)).sum) / (T.length : ℚ))
        v_gain := some ((T.sum / (T.length : ℚ)) / max (B.sum / (B.length : ℚ)) epsGuard)
        v_delta := some (T.sum / (T.length : ℚ) - B.sum / (B.length : ℚ)) } := by
  rw [aggregateEstimates, npMean_of_ne_nil hB, npMean_of_ne_nil hT,
      npVarP_of_ne_nil hB, npVarP_of_ne_nil hT]
  rfl

lemma estimateRun_ok_nonempty {σ : Type} (M : ModelIface σ) (s : DMState σ)
    (batch : SampleBatchType) (r : Estimates)
    (hok : (estimateRun M s batch).1 = Except.ok r)
    (hne : split_by_episode (convert_ma_batch_to_sample_batch batch) ≠ []) :
    r = aggregateEstimates
          (behaviorReturns s.gamma (convert_ma_batch_to_sample_batch batch))
          (targetEstimates M s.model (convert_ma_batch_to_sample_batch batch))
      ∧ behaviorReturns s.gamma (convert_ma_batch_to_sample_batch batch) ≠ []
      ∧ targetEstimates M s.model (convert_ma_batch_to_sample_batch batch) ≠ [] := by
  by_cases hg : check_action_prob_in_batch (convert_ma_batch_to_sample_batch batch) = true
  · rw [estimateRun_guard_true M s batch hg] at hok
    refine ⟨(Except.ok.inj hok).symm, ?_, ?_⟩ <;>
      simp [behaviorReturns, targetEstimates, hne]
  · rw [estimateRun_guard_false M s batch (by simpa using hg)] at hok
    exact absurd hok (by simp)

lemma demo_estimate_eval :
    (estimateRun demoModel demoState demoBatch).1 = Except.ok demoEstimates := by
  simp [estimateRun, aggregateEstimates, behaviorReturns, targetEstimates,
        split_by_episode, splitGo, v_behavior_of, npMean, npVarP,
        demoBatch, demoModel, demoState, t1, t2, t3, demoEstimates,
        convert_ma_batch_to_sample_batch, check_action_prob_in_batch, epsGuard,
        List.range_succ]
  norm_num

/-- Claim C2: for every non-empty episode `e` the loop of `estimate` computes
the empirical behaviour return as the discounted sum `Σ_t reward[t] * γ^t`;
for `γ = 1` it equals the plain sum of the episode's rewards, and for
`γ = 0` the first reward only. -/
theorem v_behavior_discounted_sum (γ : ℚ) (e : List Transition) (h : e ≠ []) :
    v_behavior_of γ e =
      ((List.range e.length).map
        (fun t => (e.map Transition.reward).getD t 0 * γ ^ t)).sum
    ∧ v_behavior_of 1 e = (e.map Transition.reward).sum
    ∧ v_behavior_of 0 e = (e.map Transition.reward).getD 0 0 := by
  refine ⟨v_behavior_of_eq_sum γ e, ?_, ?_⟩
  · rw [v_behavior_of_eq_sum]
    simp only [one_pow, mul_one]
    rw [← List.length_map e Transition.reward]
    exact congrArg List.sum (range_map_getD (e.map Transition.reward))
  · obtain ⟨x, xs, rfl⟩ := List.exists_cons_of_ne_nil h
    rw [v_behavior_of_eq_sum]
    rw [List.length_cons, List.range_succ_eq_map, List.map_cons, List.map_map,
        List.sum_cons]
    have hz : ((List.range xs.length).map
        ((fun t => ((x :: xs).map Transition.reward).getD t 0 * (0:ℚ) ^ t) ∘ Nat.succ)).sum
        = 0 := by
      apply List.sum_eq_zero
      intro y hy
      rw [List.mem_map] at hy
      obtain ⟨t, -, rfl⟩ := hy
      simp only [Function.comp_apply]
      rw [zero_pow (Nat.succ_ne_zero t), mul_zero]
    rw [hz, pow_zero, mul_one, add_zero]

/-- Claim C2, witness: the discounted-sum characterisation evaluated on the
concrete episode `[t1, t2]` with `γ = 1/2`. -/
theorem v_behavior_discounted_sum_witness :
    (([t1, t2] : List Transition) ≠ []) ∧
    (v_behavior_of (1/2) [t1, t2] =
        ((List.range ([t1, t2] : List Transition).length).map
          (fun t => (([t1, t2] : List Transition).map Transition.reward).getD t 0 * (1/2 : ℚ) ^ t)).sum
      ∧ v_behavior_of 1 [t1, t2] = (([t1, t2] : List Transition).map Transition.reward).sum
      ∧ v_behavior_of 0 [t1, t2] = (([t1, t2] : List Transition).map Transition.reward).getD 0 0) :=
  ⟨by decide, v_behavior_discounted_sum (1/2) [t1, t2] (by decide)⟩

/-- Claim C1 (amended): on a batch that yields zero episodes, `estimate`
raises no error (in particular no `EmptyBatchError`); it returns a result
whose six statistics are all NaN, and leaves the estimator state unchanged. -/
theorem estimate_empty_batch_returns_nan {σ : Type} (M : ModelIface σ)
    (s : DMState σ) (batch : SampleBatchType)
    (h : split_by_episode (convert_ma_batch_to_sample_batch batch) = []) :
    estimateRun M s batch =
      (Except.ok { v_behavior := none, v_behavior_var := none, v_target := none,
                   v_target_var := none, v_gain := none, v_delta := none },
       s) := by
  have hb : convert_ma_batch_to_sample_batch batch = [] :=
    (split_by_episode_eq_nil_iff _).mp h
  have hg : check_action_prob_in_batch (convert_ma_batch_to_sample_batch batch) = true := by
    rw [hb]; rfl
  rw [estimateRun_guard_true M s batch hg]
  simp [behaviorReturns, targetEstimates, h, aggregateEstimates, npMean, npVarP]

/-- Claim C1, counterexample: on the empty batch, `estimate` does not raise
`EmptyBatchError`; it returns a result record all of whose statistics are
NaN. -/
theorem estimate_empty_batch_no_error_cex :
    (estimateRun demoModel demoState (SampleBatchType.flat [])).1 =
      Except.ok { v_behavior := none, v_behavior_var := none, v_target := none,
                  v_target_var := none, v_gain := none, v_delta := none }
    ∧ (estimateRun demoModel demoState (SampleBatchType.flat [])).1 ≠
        Except.error EstErr.emptyBatch := by
  have h : (estimateRun demoModel demoState (SampleBatchType.flat [])).1 =
      Except.ok { v_behavior := none, v_behavior_var := none, v_target := none,
                  v_target_var := none, v_gain := none, v_delta := none } := by
    simp [estimateRun, aggregateEstimates, behaviorReturns, targetEstimates,
          split_by_episode, splitGo, npMean, npVarP,
          convert_ma_batch_to_sample_batch, check_action_prob_in_batch]
  exact ⟨h, by rw [h]; simp⟩

/-- Claim C1 (amended), witness: a multi-agent batch flattening to nothing
yields zero episodes and the all-NaN result, with no error raised. -/
theorem estimate_empty_batch_returns_nan_witness :
    split_by_episode (convert_ma_batch_to_sample_batch (SampleBatchType.multi [(0, [])])) = []
    ∧ estimateRun demoModel demoState (SampleBatchType.multi [(0, [])]) =
        (Except.ok { v_behavior := none, v_behavior_var := none, v_target := none,
                     v_target_var := none, v_gain := none, v_delta := none },
         demoState) :=
  ⟨rfl, estimate_empty_batch_returns_nan demoModel demoState _ rfl⟩

/-- Claim C8: `estimate` is read-only and deterministic: it returns the
estimator state (ValueModel included) unchanged, and a second call with the
same batch on the state returned by the first call produces the identical
result. -/
theorem estimate_readonly_deterministic {σ : Type} (M : ModelIface σ)
    (s : DMState σ) (batch : SampleBatchType) :
    (estimateRun M s batch).2 = s
    ∧ (estimateRun M (estimateRun M s batch).2 batch).1 = (estimateRun M s batch).1 := by
  have h2 : (estimateRun M s batch).2 = s := by
    rw [estimateRun]
    split <;> rfl
  exact ⟨h2, by rw [h2]⟩

/-- Claim C3: on any successfully estimated non-empty batch, `v_gain` equals
`v_target / max(v_behavior, ε)` with `ε = 1e-8`, computed from the two mean
values; whenever the mean `v_behavior` is non-positive the denominator is
the guard `ε` itself, so it is never zero or negative. -/
theorem v_gain_guarded_ratio {σ : Type} (M : ModelIface σ) (s : DMState σ)
    (batch : SampleBatchType) (r : Estimates)
    (hok : (estimateRun M s batch).1 = Except.ok r)
    (hne : split_by_episode (convert_ma_batch_to_sample_batch batch) ≠ []) :
    ∃ t vb, r.v_target = some t ∧ r.v_behavior = some vb
      ∧ r.v_gain = some (t / max vb epsGuard)
      ∧ (vb ≤ 0 → r.v_gain = some (t / epsGuard))
      ∧ epsGuard = 1 / 100000000 := by
  obtain ⟨rfl, hB, hT⟩ := estimateRun_ok_nonempty M s batch r hok hne
  rw [aggregate_of_ne_nil _ _ hB hT]
  refine ⟨_, _, rfl, rfl, rfl, ?_, rfl⟩
  intro hvb
  rw [max_eq_right (le_trans hvb (by norm_num [epsGuard]))]

/-- Claim C3, witness: the guarded-ratio characterisation on the concrete
demonstration batch and model. -/
theorem v_gain_guarded_ratio_witness :
    ∃ t vb, demoEstimates.v_target = some t ∧ demoEstimates.v_behavior = some vb
      ∧ demoEstimates.v_gain = some (t / max vb epsGuard)
      ∧ (vb ≤ 0 → demoEstimates.v_gain = some (t / epsGuard))
      ∧ epsGuard = 1 / 100000000 :=
  v_gain_guarded_ratio demoModel demoState demoBatch demoEstimates
    demo_estimate_eval (by decide)

/-- Claim C4: on any successfully estimated non-empty batch, the result holds
the arithmetic mean and the population (divide by `n`, not `n - 1`) standard
deviation of the per-episode behaviour returns and of the per-episode target
estimates, aggregated independently, and `v_delta` and `v_gain` are derived
from the two mean values. -/
theorem estimate_aggregation_mean_popstd {σ : Type} (M : ModelIface σ)
    (s : DMState σ) (batch : SampleBatchType) (r : Estimates) (B T : List ℚ)
    (hB : B = behaviorReturns s.gamma (convert_ma_batch_to_sample_batch batch))
    (hT : T = targetEstimates M s.model (convert_ma_batch_to_sample_batch batch))
    (hok : (estimateRun M s batch).1 = Except.ok r)
    (hne : split_by_episode (convert_ma_batch_to_sample_batch batch) ≠ []) :
    r.v_behavior = some (B.sum / (B.length : ℚ))
    ∧ r.v_behavior_var =
        some (((B.map (fun x => (x - B.sum / (B.length : ℚ)) ^ 2)).sum) / (B.length : ℚ))
    ∧ reportedStd r.v_behavior_var =
        some (Real.sqrt ((((B.map (fun x => (x - B.sum / (B.length : ℚ)) ^ 2)).sum) / (B.length : ℚ) : ℚ)))
    ∧ r.v_target = some (T.sum / (T.length : ℚ))
    ∧ r.v_target_var =
        some (((T.map (fun x => (x - T.sum / (T.length : ℚ)) ^ 2)).sum) / (T.length : ℚ))
    ∧ reportedStd r.v_target_var =
        some (Real.sqrt ((((T.map (fun x => (x - T.sum / (T.length : ℚ)) ^ 2)).sum) / (T.length : ℚ) : ℚ)))
    ∧ r.v_delta = some (T.sum / (T.length : ℚ) - B.sum / (B.length : ℚ))
    ∧ r.v_gain = some ((T.sum / (T.length : ℚ)) / max (B.sum / (B.length : ℚ)) epsGuard) := by
  subst hB
  subst hT
  obtain ⟨rfl, hBne, hTne⟩ := estimateRun_ok_nonempty M s batch r hok hne
  rw [aggregate_of_ne_nil _ _ hBne hTne]
  exact ⟨rfl, rfl, by simp [reportedStd], rfl, rfl, by simp [reportedStd], rfl, rfl⟩

/-- Claim C4, witness: the mean and derived-from-means fields evaluated on
the concrete demonstration batch. -/
theorem estimate_aggregation_mean_popstd_witness :
    demoEstimates.v_behavior =
      some ((behaviorReturns demoState.gamma (convert_ma_batch_to_sample_batch demoBatch)).sum /
        ((behaviorReturns demoState.gamma (convert_ma_batch_to_sample_batch demoBatch)).length : ℚ))
    ∧ demoEstimates.v_delta =
      some ((targetEstimates demoModel demoState.model (convert_ma_batch_to_sample_batch demoBatch)).sum /
          ((targetEstimates demoModel demoState.model (convert_ma_batch_to_sample_batch demoBatch)).length : ℚ)
        - (behaviorReturns demoState.gamma (convert_ma_batch_to_sample_batch demoBatch)).sum /
          ((behaviorReturns demoState.gamma (convert_ma_batch_to_sample_batch demoBatch)).length : ℚ)) := by
  have h := estimate_aggregation_mean_popstd demoModel demoState demoBatch
    demoEstimates _ _ rfl rfl demo_estimate_eval (by decide)
  exact ⟨h.1, h.2.2.2.2.2.2.1⟩

/-- Claim C5: end-to-end scenario: on the two-episode batch with rewards
`[1, 1]` and `[2]`, `γ = 1/2`, and a ValueModel returning `2.0` for every
initial state, `estimate` returns `v_behavior = 1.75`, `v_target = 2`,
`v_target_std = 0`, `v_gain = 2 / 1.75 = 8/7` and `v_delta = 0.25`. -/
theorem estimate_end_to_end_scenario :
    (estimateRun demoModel demoState demoBatch).1 = Except.ok demoEstimates
    ∧ demoEstimates.v_behavior = some (7/4)
    ∧ demoEstimates.v_target = some 2
    ∧ reportedStd demoEstimates.v_target_var = some 0
    ∧ demoEstimates.v_gain = some (2 / (7/4))
    ∧ demoEstimates.v_delta = some (1/4) := by
  refine ⟨demo_estimate_eval, rfl, rfl, ?_, ?_, rfl⟩
  · simp [reportedStd, demoEstimates]
  · show some ((8 : ℚ)/7) = some (2 / (7/4))
    norm_num

/-- Claim C6: whenever the ValueModel's training routine returns a non-empty
loss sequence, `train` returns the arithmetic mean of that sequence under the
key `loss`. -/
theorem train_returns_mean_loss {σ : Type} (M : ModelIface σ) (s : DMState σ)
    (batch : SampleBatchType) (L : List ℚ)
    (hL : L = M.trainLosses s.model (convert_ma_batch_to_sample_batch batch))
    (h : L ≠ []) :
    (trainRun M s batch).1 = Except.ok { loss := some (L.sum / (L.length : ℚ)) } := by
  subst hL
  simp only [trainRun, npMean_of_ne_nil h]

/-- Claim C6, witness: for reported losses `[4, 2]`, `train` returns
`{"loss": 3}`. -/
theorem train_returns_mean_loss_witness :
    (trainRun lossModel demoState demoBatch).1 = Except.ok { loss := some 3 } := by
  have h := train_returns_mean_loss lossModel demoState demoBatch [4, 2] rfl
    (by simp)
  rw [h]
  norm_num

/-- Claim C7: when some transition of the normalized batch lacks the
action-probability field, `estimate` fails with `MissingFieldError` for every
model and state, leaving the state untouched (so no model call or numeric
computation happens); when every transition carries the field, `estimate`
never produces `MissingFieldError`. -/
theorem estimate_missing_action_prob_fails_fast {σ : Type} (M : ModelIface σ)
    (s : DMState σ) (batch : SampleBatchType) :
    (check_action_prob_in_batch (convert_ma_batch_to_sample_batch batch) = false →
      estimateRun M s batch = (Except.error EstErr.missingField, s))
    ∧ (check_action_prob_in_batch (convert_ma_batch_to_sample_batch batch) = true →
      (estimateRun M s batch).1 ≠ Except.error EstErr.missingField) := by
  constructor
  · intro hg
    exact estimateRun_guard_false M s batch hg
  · intro hg hc
    rw [estimateRun_guard_true M s batch hg] at hc
    exact absurd hc (by simp)

/-- Claim C7, witness: the batch whose transition lacks the field makes
`estimate` fail with `MissingFieldError`. -/
theorem estimate_missing_action_prob_fails_fast_witness :
    check_action_prob_in_batch (convert_ma_batch_to_sample_batch badBatch) = false
    ∧ estimateRun demoModel demoState badBatch =
        (Except.error EstErr.missingField, demoState) :=
  ⟨rfl, (estimate_missing_action_prob_fails_fast demoModel demoState badBatch).1 rfl⟩

/-- Claim C9: `train` performs only the multi-agent normalization and never
the action-probability check: even on a batch lacking the field it raises no
`MissingFieldError` and proceeds to invoke the ValueModel's training routine
(the returned loss is the mean of the model's losses and the stored model
state is the model's updated state). -/
theorem train_skips_action_prob_check {σ : Type} (M : ModelIface σ)
    (s : DMState σ) (batch : SampleBatchType)
    (h : check_action_prob_in_batch (convert_ma_batch_to_sample_batch batch) = false) :
    (trainRun M s batch).1 =
      Except.ok { loss := npMean (M.trainLosses s.model (convert_ma_batch_to_sample_batch batch)) }
    ∧ (trainRun M s batch).2 =
        { gamma := s.gamma, model := M.trainStep s.model (convert_ma_batch_to_sample_batch batch) }
    ∧ (trainRun M s batch).1 ≠ Except.error EstErr.missingField := by
  refine ⟨rfl, rfl, ?_⟩
  intro hc
  simp [trainRun] at hc

/-- Claim C9, witness: `train` on the batch lacking the action-probability
field still delegates to the model's training routine. -/
theorem train_skips_action_prob_check_witness :
    check_action_prob_in_batch (convert_ma_batch_to_sample_batch badBatch) = false
    ∧ (trainRun lossModel demoState badBatch).1 =
        Except.ok { loss := npMean (lossModel.trainLosses demoState.model
          (convert_ma_batch_to_sample_batch badBatch)) } :=
  ⟨rfl, (train_skips_action_prob_check lossModel demoState badBatch rfl).1⟩

lemma lookup_filter_ne (d : QConfig) (k : String) :
    (d.filter (fun p => p.1 != k)).lookup k = none := by
  induction d with
  | nil => rfl
  | cons p rest ih =>
      by_cases h : p.1 = k
      · simp [List.filter_cons, h, ih]
      · have hbe : (k == p.1) = false := beq_eq_false_iff_ne.mpr (Ne.symm h)
        simp [List.filter_cons, h, List.lookup, ih, hbe]

/-- Claim C10: when a non-empty `q_model_config` containing a `type` key is
passed, construction pops that key out of the caller's dict (the caller's
dict afterwards no longer contains `type`) and forwards the remaining entries
verbatim to the selected class; when `type` is absent, the default fitted-Q
model class is selected and the caller's dict is unchanged. -/
theorem init_pops_type_key (d d0 : QConfig) (c : ModelCls)
    (hne : d ≠ []) (hty : d.lookup "type" = some (ConfigVal.cls c))
    (h0 : d0.lookup "type" = none) :
    directMethodInit (some d) =
      ({ model_cls := c, forwarded := d.filter (fun p => p.1 != "type") },
       some (d.filter (fun p => p.1 != "type")))
    ∧ (d.filter (fun p => p.1 != "type")).lookup "type" = none
    ∧ (directMethodInit (some d0)).1.model_cls = ModelCls.FQETorchModel
    ∧ (directMethodInit (some d0)).2 = some d0 := by
  refine ⟨?_, lookup_filter_ne d "type", ?_, ?_⟩
  · simp [directMethodInit, dictPop, hty]
  · simp [directMethodInit, dictPop, h0]
  · simp [directMethodInit, dictPop, h0]

/-- Claim C10, witness: popping `type` from a concrete two-entry dict, and
the default selection on a dict without `type`. -/
theorem init_pops_type_key_witness :
    directMethodInit (some [("type", ConfigVal.cls (ModelCls.custom 7)), ("lr", ConfigVal.num 1)]) =
      ({ model_cls := ModelCls.custom 7, forwarded := [("lr", ConfigVal.num 1)] },
       some [("lr", ConfigVal.num 1)])
    ∧ (directMethodInit (some [("lr", ConfigVal.num 1)])).1.model_cls = ModelCls.FQETorchModel := by
  have h := init_pops_type_key
    [("type", ConfigVal.cls (ModelCls.custom 7)), ("lr", ConfigVal.num 1)]
    [("lr", ConfigVal.num 1)] (ModelCls.custom 7) (by simp) rfl rfl
  exact ⟨by rw [h.1]; rfl, h.2.2.1⟩

end DirectMethodSpec
